import Mathlib

/-!
Verification development for the call-session conversation state machine of the
ai-call-agents repository.  The embedded code is the Deno edge function
`process-call-message` (file `src/agent_carousel.tsx`, second document): session
data model, field extractor, step handlers, readiness predicates, interruption
branch and the session-store write.  JavaScript objects holding collected data
are modelled as association lists with first-key-wins lookup; JS string
truthiness ("" is falsy) is modelled explicitly; the two regular expressions of
`extractAndStoreData` are modelled by a small executable leftmost-greedy
backtracking matcher whose patterns transcribe the source literals; the
pseudo-random filler index `Math.floor(Math.random() * list.length)` is
modelled by an arbitrary natural number reduced modulo the list length.
-/

/-! ### Association lists with JavaScript object semantics -/

/-- Lookup of a key in an association list, first binding wins (JS property read). -/
def lookupAssoc {α : Type} : List (String × α) → String → Option α
  | [], _ => none
  | (k, v) :: rest, key => if k = key then some v else lookupAssoc rest key

/-- Assignment `obj[key] = v` on a JS object: overwrite the existing binding when
the key is present, otherwise append a new binding. -/
def setAssoc {α : Type} (d : List (String × α)) (key : String) (v : α) : List (String × α) :=
  if (lookupAssoc d key).isSome then
    d.map (fun p => if p.1 = key then (key, v) else p)
  else d ++ [(key, v)]

/-- JS truthiness of `obj[key]` for string-valued objects: a missing key and the
empty string are falsy, every other string is truthy. -/
def truthyAt (d : List (String × String)) (fid : String) : Bool :=
  match lookupAssoc d fid with
  | none => false
  | some v => if v = "" then false else true

/-! ### String helpers mirroring the JavaScript built-ins used by the source -/

/-- JS `String.prototype.toLowerCase` restricted to the ASCII range used here. -/
def jsToLower (s : String) : String := ⟨s.toList.map Char.toLower⟩

/-- ASCII whitespace, the characters `String.prototype.trim` strips in the data
that occurs here. -/
def isSpaceChar (c : Char) : Bool := c = ' ' || c = '\t' || c = '\n' || c = '\r'

/-- JS `String.prototype.trim`: drop leading and trailing whitespace. -/
def jsTrim (s : String) : String :=
  ⟨((s.toList.dropWhile isSpaceChar).reverse.dropWhile isSpaceChar).reverse⟩

/-- JS `str.split(' ')`: split on every single space, keeping empty pieces; the
empty string yields one empty piece. -/
def splitOnSpace : List Char → List (List Char)
  | [] => [[]]
  | c :: rest =>
    let r := splitOnSpace rest
    if c = ' ' then [] :: r
    else
      match r with
      | w :: ws => (c :: w) :: ws
      | [] => [[c]]

/-- Does the first list occur as a leading segment of the second? -/
def charsStartWith : List Char → List Char → Bool
  | [], _ => true
  | _ :: _, [] => false
  | a :: as, b :: bs => (if a = b then true else false) && charsStartWith as bs

/-- Does the first list occur as a contiguous segment of the second? -/
def charsContain (sub : List Char) : List Char → Bool
  | [] => charsStartWith sub []
  | x :: rest => charsStartWith sub (x :: rest) || charsContain sub rest

/-- JS `String.prototype.includes`. -/
def strIncludes (s sub : String) : Bool := charsContain sub.toList s.toList

/-! ### A leftmost-greedy backtracking matcher for the two source regexes

The source calls `message.match(re)` with
`re = /\b[A-Za-z0-9._%+-]+@[A-Za-z0-9.-]+\.[A-Z|a-z]{2,}\b/` for email and
`re = /\b\d{3}[-.]?\d{3}[-.]?\d{4}\b/` for phone, using only the full match
`m[0]`.  A pattern is a sequence of elements: a literal character, a character
class with a minimum and an optional maximum repetition count (greedy, with
backtracking), or a word boundary.  Search proceeds from the leftmost starting
position; at each position elements are matched greedily with backtracking,
exactly as the JS engine treats these patterns.  Recursion is by an explicit
fuel that strictly exceeds the maximal backtracking depth, so the function is
structurally recursive and evaluates inside the kernel. -/

/-- One element of a regex pattern. -/
inductive RElem where
  | chr : Char → RElem
  | cls : (Char → Bool) → Nat → Option Nat → RElem
  | boundary : RElem

/-- Word characters for the `\b` assertion: `[A-Za-z0-9_]`. -/
def isWordChar (c : Char) : Bool := c.isAlpha || c.isDigit || c = '_'

/-- Word-character test on an optional character, out of range counts as non-word. -/
def isWordOpt : Option Char → Bool
  | some c => isWordChar c
  | none => false

/-- A matching job: either match a pattern tail against the input, or try the
repetition counts of a class element from a given count downwards (greedy
backtracking).  Both carry the character preceding the current position for the
`\b` assertion. -/
inductive MatchJob where
  | seq : List RElem → Option Char → List Char → MatchJob
  | rep : (Char → Bool) → Nat → List RElem → Option Char → List Char → Nat → MatchJob

/-- Run a matching job with the given fuel; returns the matched characters. -/
def runMatch : Nat → MatchJob → Option (List Char)
  | 0, _ => none
  | fuel + 1, MatchJob.seq elems prev xs =>
    match elems with
    | [] => some []
    | RElem.chr c :: rest =>
      match xs with
      | [] => none
      | x :: xs2 =>
        if x = c then (runMatch fuel (MatchJob.seq rest (some x) xs2)).map (fun t => x :: t)
        else none
    | RElem.cls p minN maxN :: rest =>
      let run := (xs.takeWhile p).length
      let start :=
        match maxN with
        | some mx => min run mx
        | none => run
      runMatch fuel (MatchJob.rep p minN rest prev xs start)
    | RElem.boundary :: rest =>
      if isWordOpt prev != isWordOpt xs.head? then runMatch fuel (MatchJob.seq rest prev xs)
      else none
  | fuel + 1, MatchJob.rep p minN rest prev xs n =>
    if n < minN then none
    else
      let consumed := xs.take n
      let prev2 :=
        match consumed.getLast? with
        | some c => some c
        | none => prev
      match runMatch fuel (MatchJob.seq rest prev2 (xs.drop n)) with
      | some t => some (consumed ++ t)
      | none =>
        match n with
        | 0 => none
        | m + 1 => runMatch fuel (MatchJob.rep p minN rest prev xs m)

/-- Fuel bounding the backtracking depth of one match attempt. -/
def regexFuel (pat : List RElem) (xs : List Char) : Nat :=
  (pat.length + 2) * (xs.length + 4)

/-- Try the pattern at every starting position from the left, first hit wins
(JS `String.prototype.match` without the global flag, component `m[0]`). -/
def searchFrom (pat : List RElem) : Option Char → List Char → Option (List Char)
  | prev, xs =>
    match runMatch (regexFuel pat xs) (MatchJob.seq pat prev xs) with
    | some m2 => some m2
    | none =>
      match xs with
      | [] => none
      | x :: xs2 => searchFrom pat (some x) xs2

/-- Full-match result of `message.match(re)`, as the matched substring. -/
def jsMatch (pat : List RElem) (s : String) : Option String :=
  (searchFrom pat none s.toList).map (fun l => ⟨l⟩)

/-- Character class `[A-Za-z0-9._%+-]` of the email local part. -/
def emailLocalChar (c : Char) : Bool :=
  c.isAlpha || c.isDigit || c = '.' || c = '_' || c = '%' || c = '+' || c = '-'

/-- Character class `[A-Za-z0-9.-]` of the email domain part. -/
def emailDomainChar (c : Char) : Bool := c.isAlpha || c.isDigit || c = '.' || c = '-'

/-- Character class `[A-Z|a-z]` of the top-level-domain part; the source class
literally contains the pipe character. -/
def emailTldChar (c : Char) : Bool := c.isAlpha || c = '|'

/-- Character class `\d`. -/
def isDigitChar (c : Char) : Bool := c.isDigit

/-- Character class `[-.]`. -/
def isDashDot (c : Char) : Bool := c = '-' || c = '.'

/-- The email regex `\b[A-Za-z0-9._%+-]+@[A-Za-z0-9.-]+\.[A-Z|a-z]{2,}\b`. -/
def emailPattern : List RElem :=
  [RElem.boundary, RElem.cls emailLocalChar 1 none, RElem.chr '@',
   RElem.cls emailDomainChar 1 none, RElem.chr '.', RElem.cls emailTldChar 2 none,
   RElem.boundary]

/-- The phone regex `\b\d{3}[-.]?\d{3}[-.]?\d{4}\b`. -/
def phonePattern : List RElem :=
  [RElem.boundary, RElem.cls isDigitChar 3 (some 3), RElem.cls isDashDot 0 (some 1),
   RElem.cls isDigitChar 3 (some 3), RElem.cls isDashDot 0 (some 1),
   RElem.cls isDigitChar 4 (some 4), RElem.boundary]

/-! ### Data model

The session record loaded from the `call_sessions` table, as assembled into the
`CallContext` object by `serve`. -/

/-- A configured core field `{id, label, required}`. -/
structure FieldDef where
  id : String
  label : String
  required : Bool
deriving DecidableEq

/-- A configured additional question `{id, question, required}`. -/
structure Question where
  id : String
  question : String
  required : Bool
deriving DecidableEq

/-- One `{role, content}` entry of the conversation history. -/
structure HistEntry where
  role : String
  content : String
deriving DecidableEq

/-- The call context assembled by `serve` from the loaded session row. -/
structure CallContext where
  agentId : String
  sessionId : String
  collectedData : List (String × String)
  currentStep : String
  coreFields : List FieldDef
  additionalQuestions : List Question
  interruptionCount : Nat
  conversationHistory : List HistEntry
deriving DecidableEq

/-- Result of a step handler: the agent reply and the next step. -/
structure StepResult where
  response : String
  nextStep : String
deriving DecidableEq

/-- The JSON body returned to the caller on the success path. -/
structure ProcessResponse where
  response : String
  nextStep : String
  shouldCollectMore : Bool
  bookingAvailable : Bool
deriving DecidableEq

/-! ### Filler phrases and pseudo-random selection -/

/-- The `HUMAN_FILLERS` constant of the source. -/
def HUMAN_FILLERS : List String :=
  ["umm", "let me see", "gotcha", "that makes sense", "I understand", "hmm", "aha"]

/-- The `INTERRUPTION_RESPONSES` constant of the source. -/
def INTERRUPTION_RESPONSES : List String :=
  ["Oh, I understand", "That\x27s helpful", "Got it", "I see", "Right, okay"]

/-- The draw `HUMAN_FILLERS[Math.floor(Math.random() * HUMAN_FILLERS.length)]`,
with the random source modelled as an arbitrary natural number. -/
def fillerAt (r : Nat) : String :=
  HUMAN_FILLERS.get ⟨r % HUMAN_FILLERS.length, Nat.mod_lt r (by decide)⟩

/-- The draw from `INTERRUPTION_RESPONSES`, random source as in `fillerAt`. -/
def ackAt (r : Nat) : String :=
  INTERRUPTION_RESPONSES.get ⟨r % INTERRUPTION_RESPONSES.length, Nat.mod_lt r (by decide)⟩

/-! ### Field extractor and step handlers -/

/-- The test `!context.collectedData[field.id] || context.collectedData[field.id].trim() === ''`
used by `handleDataCollection` to find the still-missing core fields. -/
def coreFieldMissing (d : List (String × String)) (fid : String) : Bool :=
  match lookupAssoc d fid with
  | none => true
  | some v => if v = "" then true else (if jsTrim v = "" then true else false)

/-- `extractAndStoreData`: looks for an email-shaped token and writes it under the
literal key `email`, then for a phone-shaped token written under the literal key
`phone`, and otherwise, when the message has at most 4 space-separated words,
stores the trimmed message under the first core field whose entry is falsy.
The source mutates `context.collectedData` in place; the function returns the
new collected data. -/
def extractAndStoreData (context : CallContext) (message : String) : List (String × String) :=
  let words := splitOnSpace (jsToLower message).toList
  let emailMatch := jsMatch emailPattern message
  let d1 :=
    match emailMatch with
    | some m2 => setAssoc context.collectedData "email" m2
    | none => context.collectedData
  let phoneMatch := jsMatch phonePattern message
  let d2 :=
    match phoneMatch with
    | some m2 => setAssoc d1 "phone" m2
    | none => d1
  if words.length ≤ 4 && emailMatch.isNone && phoneMatch.isNone then
    match context.coreFields.find? (fun f => !(truthyAt d2 f.id)) with
    | some f => setAssoc d2 f.id (jsTrim message)
    | none => d2
  else d2

/-- `generateGreeting`. -/
def generateGreeting (r : Nat) : String :=
  "Hi there! " ++ fillerAt r ++
    ", I\x27m calling to help collect some information for your inquiry. Is this a good time to chat for a few minutes?"

/-- `handleDataCollection`: the missing core fields are computed BEFORE
extraction runs; with at least one missing core field the extractor runs and the
reply prompts the head of that pre-extraction list; with all core fields filled
the first unanswered additional question is asked (no extraction at all); with
nothing unanswered the step moves to `confirming`.  Returns the new collected
data together with the reply and next step. -/
def handleDataCollection (context : CallContext) (message : String) (r : Nat) :
    List (String × String) × StepResult :=
  let missingFields :=
    context.coreFields.filter (fun field => coreFieldMissing context.collectedData field.id)
  match missingFields with
  | nextField :: _ =>
    let d2 := extractAndStoreData context message
    (d2, { response := fillerAt r ++ ", and what\x27s your " ++ jsToLower nextField.label ++ "?",
           nextStep := "collecting" })
  | [] =>
    let unansweredQuestions :=
      context.additionalQuestions.filter (fun q => !(truthyAt context.collectedData q.id))
    match unansweredQuestions with
    | nextQuestion :: _ =>
      (context.collectedData,
       { response := "Great! " ++ nextQuestion.question, nextStep := "collecting" })
    | [] =>
      (context.collectedData,
       { response := "Perfect! Let me confirm the information I\x27ve collected...",
         nextStep := "confirming" })

/-- The affirmative test of `handleConfirmation`. -/
def isConfirmed (message : String) : Bool :=
  strIncludes (jsToLower message) "yes" || strIncludes (jsToLower message) "correct" ||
    strIncludes (jsToLower message) "right"

/-- `handleConfirmation`. -/
def handleConfirmation (message : String) : StepResult :=
  if isConfirmed message then
    { response := "Excellent! Would you like me to help you schedule an appointment to discuss your needs further?",
      nextStep := "booking" }
  else
    { response := "No problem! What would you like me to correct?", nextStep := "collecting" }

/-- The affirmative test of `handleBooking`. -/
def wantsBooking (message : String) : Bool :=
  strIncludes (jsToLower message) "yes" || strIncludes (jsToLower message) "sure" ||
    strIncludes (jsToLower message) "book"

/-- `handleBooking`: both branches end at `complete`. -/
def handleBooking (message : String) : StepResult :=
  if wantsBooking message then
    { response := "Great! I\x27ll have someone from our team reach out within 24 hours to schedule a convenient time. Thank you for your information!",
      nextStep := "complete" }
  else
    { response := "No worries! We have all your information and someone will be in touch. Have a great day!",
      nextStep := "complete" }

/-! ### Readiness predicates -/

/-- `needsMoreData`: every core field and every additional question must have a
truthy entry; the `required` flag is not consulted. -/
def needsMoreData (context : CallContext) : Bool :=
  let coreComplete := context.coreFields.all (fun field => truthyAt context.collectedData field.id)
  let additionalComplete :=
    context.additionalQuestions.all (fun q => truthyAt context.collectedData q.id)
  !coreComplete || !additionalComplete

/-- `canOfferBooking`. -/
def canOfferBooking (context : CallContext) : Bool :=
  !needsMoreData context && (if context.currentStep = "complete" then false else true)

/-! ### Interruption branch -/

/-- `getCurrentFieldLabel`. -/
def getCurrentFieldLabel (context : CallContext) : String :=
  match context.coreFields.find? (fun field => !(truthyAt context.collectedData field.id)) with
  | some f => jsToLower f.label
  | none => "information"

/-- `generateContextualResponse`: a filler plus a fragment chosen by the current
step; the message argument is accepted and ignored, as in the source. -/
def generateContextualResponse (context : CallContext) (_message : String) (r : Nat) : String :=
  let filler := fillerAt r
  if context.currentStep = "collecting" then
    filler ++ ", so about that " ++ getCurrentFieldLabel context ++ "..."
  else if context.currentStep = "confirming" then
    filler ++ ", let me make sure I have everything right..."
  else if context.currentStep = "booking" then
    filler ++ ", so regarding the appointment..."
  else
    filler ++ ", let me get back on track here..."

/-- The `isInterruption` branch of `serve`: increments the interruption counter,
persists only `interruption_count`, and answers with an acknowledgment phrase,
a period and a contextual fragment; the step never changes and the extractor is
not called.  Returns the session as persisted plus the JSON body. -/
def handleInterruption (context : CallContext) (message : String) (rAck rFill : Nat) :
    CallContext × ProcessResponse :=
  let c2 := { context with interruptionCount := context.interruptionCount + 1 }
  let ack := ackAt rAck
  (c2, { response := ack ++ ". " ++ generateContextualResponse c2 message rFill,
         nextStep := c2.currentStep,
         shouldCollectMore := needsMoreData c2,
         bookingAvailable := canOfferBooking c2 })

/-! ### The message processor -/

/-- `processMessage`: appends the user entry to the history, dispatches on the
current step (the default branch keeps the step), appends the agent reply to the
history, and builds the JSON body.  `shouldCollectMore` and `bookingAvailable`
are computed on the context whose `currentStep` is still the pre-transition
step, because the source never reassigns `context.currentStep`.  Returns the
context as persisted by `updateSession` (except for `current_step`, which the
store receives as `nextStep`; see `stepSession`) together with the body. -/
def processMessage (context : CallContext) (message : String) (r : Nat) :
    CallContext × ProcessResponse :=
  let c1 : CallContext :=
    { context with conversationHistory :=
        context.conversationHistory ++ [{ role := "user", content := message }] }
  let branch : List (String × String) × StepResult :=
    if c1.currentStep = "greeting" then
      (c1.collectedData, { response := generateGreeting r, nextStep := "collecting" })
    else if c1.currentStep = "collecting" then
      handleDataCollection c1 message r
    else if c1.currentStep = "confirming" then
      (c1.collectedData, handleConfirmation message)
    else if c1.currentStep = "booking" then
      (c1.collectedData, handleBooking message)
    else
      (c1.collectedData,
       { response := "I\x27m not sure how to help with that. Could you repeat?",
         nextStep := c1.currentStep })
  let c2 : CallContext :=
    { c1 with collectedData := branch.1,
              conversationHistory :=
                c1.conversationHistory ++ [{ role := "assistant", content := branch.2.response }] }
  (c2, { response := branch.2.response, nextStep := branch.2.nextStep,
         shouldCollectMore := needsMoreData c2, bookingAvailable := canOfferBooking c2 })

/-- One processed message as seen through the session store: `updateSession`
persists `current_step = nextStep` together with the collected data and history,
so the session reloaded by the next call carries the transitioned step. -/
def stepSession (context : CallContext) (message : String) (r : Nat) :
    CallContext × ProcessResponse :=
  let pr := processMessage context message r
  ({ pr.1 with currentStep := pr.2.nextStep }, pr.2)

/-- A sequence of processed (non-interruption) messages, each with its random
draw, as the session store sees them. -/
def runMessages (context : CallContext) (evts : List (String × Nat)) : CallContext :=
  evts.foldl (fun c e => (stepSession c e.1 e.2).1) context

/-! ### The request handler with the session store explicit -/

/-- Outcome of the HTTP handler: a success body, or an error with a status code. -/
inductive HandlerResult where
  | ok : ProcessResponse → HandlerResult
  | err : Nat → String → HandlerResult
deriving DecidableEq

/-- The session store: rows keyed by session id, plus a flag telling whether the
next write fails (the supabase update returning an error object). -/
structure SessionStore where
  rows : List (String × CallContext)
  writeFails : Bool
deriving DecidableEq

/-- The supabase write performed by `updateSession`.  The source function awaits
the update and discards the returned `{error}` object without inspecting it. -/
def storeWrite (store : SessionStore) (sid : String) (row : CallContext) :
    Except String SessionStore :=
  if store.writeFails then Except.error "write failed"
  else Except.ok { store with rows := setAssoc store.rows sid row }

/-- The non-interruption path of `serve`: load the session (404 when absent),
run `processMessage`, call `updateSession` — whose write outcome the source
discards — and return the computed body as a 200 response either way. -/
def serveProcess (store : SessionStore) (sid : String) (message : String) (r : Nat) :
    HandlerResult × SessionStore :=
  match lookupAssoc store.rows sid with
  | none => (HandlerResult.err 404 "Session not found", store)
  | some session =>
    let pr := processMessage session message r
    let committed := { pr.1 with currentStep := pr.2.nextStep }
    match storeWrite store sid committed with
    | Except.ok store2 => (HandlerResult.ok pr.2, store2)
    | Except.error _ => (HandlerResult.ok pr.2, store)

/-! ### Claim-level predicates and concrete sessions -/

/-- The five defined conversation steps. -/
def validStep (s : String) : Prop :=
  s = "greeting" ∨ s = "collecting" ∨ s = "confirming" ∨ s = "booking" ∨ s = "complete"

/-- The transition edges the invariant claim allows: the forward chain with its
self-loops, the single backward edge `confirming → collecting`, and no edge out
of `complete` other than staying at `complete`. -/
def allowedTransition (a b : String) : Prop :=
  (a = "greeting" ∧ b = "collecting") ∨
  (a = "collecting" ∧ (b = "collecting" ∨ b = "confirming")) ∨
  (a = "confirming" ∧ (b = "booking" ∨ b = "collecting")) ∨
  (a = "booking" ∧ b = "complete") ∨
  (a = "complete" ∧ b = "complete")

/-- Modelled from the spec: the readiness test as the claim words it — some
REQUIRED core field or some configured additional question has no entry in
`collectedData`.  Stated for comparison with the source `needsMoreData`, which
ignores the `required` flag. -/
def needsMoreDataSpecRequiredOnly (context : CallContext) : Bool :=
  context.coreFields.any (fun f =>
    f.required && !(truthyAt context.collectedData f.id)) ||
  context.additionalQuestions.any (fun q => !(truthyAt context.collectedData q.id))

/-- The core fields `{name, email, phone}` of the scenarios. -/
def coreFieldsNEP : List FieldDef :=
  [{ id := "name", label := "Name", required := true },
   { id := "email", label := "Email", required := true },
   { id := "phone", label := "Phone", required := true }]

/-- Scenario A session: step `collecting`, core fields name, email, phone, all unfilled. -/
def ctxA : CallContext :=
  { agentId := "agent-1", sessionId := "s1", collectedData := [],
    currentStep := "collecting", coreFields := coreFieldsNEP,
    additionalQuestions := [], interruptionCount := 0, conversationHistory := [] }

/-- A session whose configuration has no field with id `email` or `phone`. -/
def ctxC3 : CallContext :=
  { ctxA with coreFields := [{ id := "company", label := "Company", required := true }] }

/-- A session with all core fields filled and one unanswered additional question. -/
def ctxC4 : CallContext :=
  { ctxA with
      collectedData :=
        [("name", "John Smith"), ("email", "john@example.com"), ("phone", "123-456-7890")],
      additionalQuestions := [{ id := "q1", question := "What time works best?", required := true }] }

/-- A session whose single configured core field is not marked required and is unfilled. -/
def ctxC6 : CallContext :=
  { ctxA with coreFields := [{ id := "nickname", label := "Nickname", required := false }] }

/-- A session at step `booking` with every core field and question answered. -/
def ctxC10 : CallContext :=
  { ctxC4 with collectedData := ctxC4.collectedData ++ [("q1", "Tomorrow")],
               currentStep := "booking" }

/-- A store holding the Scenario A session whose next write fails. -/
def storeFail : SessionStore := { rows := [("s1", ctxA)], writeFails := true }

/-! ### Helper lemmas about assignment on JS objects -/

theorem lookupAssoc_map_set {α : Type} (d : List (String × α)) (k : String) (v : α)
    (h : (lookupAssoc d k).isSome = true) :
    lookupAssoc (d.map (fun p => if p.1 = k then (k, v) else p)) k = some v := by
  induction d with
  | nil => simp [lookupAssoc] at h
  | cons a rest ih =>
    obtain ⟨a1, a2⟩ := a
    by_cases ha : a1 = k
    · subst ha
      simp only [List.map_cons]
      rw [if_pos trivial]
      rw [lookupAssoc, if_pos rfl]
    · rw [lookupAssoc] at h
      rw [if_neg ha] at h
      simp only [List.map_cons]
      rw [show (if (a1, a2).1 = k then (k, v) else (a1, a2)) = (a1, a2) from if_neg ha]
      rw [lookupAssoc, if_neg ha]
      exact ih h

theorem lookupAssoc_append_single {α : Type} (d : List (String × α)) (k : String) (v : α)
    (h : lookupAssoc d k = none) :
    lookupAssoc (d ++ [(k, v)]) k = some v := by
  induction d with
  | nil => simp [lookupAssoc]
  | cons a rest ih =>
    obtain ⟨a1, a2⟩ := a
    by_cases ha : a1 = k
    · rw [lookupAssoc, if_pos ha] at h
      exact absurd h (by simp)
    · rw [lookupAssoc, if_neg ha] at h
      rw [List.cons_append, lookupAssoc, if_neg ha]
      exact ih h

theorem lookupAssoc_setAssoc_self {α : Type} (d : List (String × α)) (k : String) (v : α) :
    lookupAssoc (setAssoc d k v) k = some v := by
  unfold setAssoc
  split
  next h => exact lookupAssoc_map_set d k v h
  next h =>
    refine lookupAssoc_append_single d k v ?_
    cases hd : lookupAssoc d k with
    | none => rfl
    | some w => rw [hd] at h; simp at h

theorem lookupAssoc_map_set_ne {α : Type} (d : List (String × α)) (k : String) (v : α)
    (key : String) (hne : key ≠ k) :
    lookupAssoc (d.map (fun p => if p.1 = k then (k, v) else p)) key = lookupAssoc d key := by
  induction d with
  | nil => rfl
  | cons a rest ih =>
    obtain ⟨a1, a2⟩ := a
    simp only [List.map_cons]
    by_cases ha : a1 = k
    · subst ha
      rw [show (if (a1, a2).1 = a1 then (a1, v) else (a1, a2)) = (a1, v) from if_pos rfl]
      rw [lookupAssoc, lookupAssoc]
      rw [if_neg (fun h => hne (Eq.symm h)), if_neg (fun h => hne (Eq.symm h))]
      exact ih
    · rw [show (if (a1, a2).1 = k then (k, v) else (a1, a2)) = (a1, a2) from if_neg ha]
      rw [lookupAssoc, lookupAssoc]
      by_cases h2 : a1 = key
      · rw [if_pos h2, if_pos h2]
      · rw [if_neg h2, if_neg h2]
        exact ih

theorem lookupAssoc_append_single_ne {α : Type} (d : List (String × α)) (k : String) (v : α)
    (key : String) (hne : key ≠ k) :
    lookupAssoc (d ++ [(k, v)]) key = lookupAssoc d key := by
  induction d with
  | nil =>
    have h3 : ¬k = key := fun h => hne (Eq.symm h)
    simp [lookupAssoc, h3]
  | cons a rest ih =>
    obtain ⟨a1, a2⟩ := a
    rw [List.cons_append, lookupAssoc, lookupAssoc]
    by_cases h2 : a1 = key
    · rw [if_pos h2, if_pos h2]
    · rw [if_neg h2, if_neg h2]
      exact ih

theorem lookupAssoc_setAssoc_ne {α : Type} (d : List (String × α)) (k : String) (v : α)
    (key : String) (hne : key ≠ k) :
    lookupAssoc (setAssoc d k v) key = lookupAssoc d key := by
  unfold setAssoc
  split
  next => exact lookupAssoc_map_set_ne d k v key hne
  next => exact lookupAssoc_append_single_ne d k v key hne

theorem fst_mem_setAssoc {α : Type} (d : List (String × α)) (k : String) (v : α) :
    ∀ p ∈ setAssoc d k v, p.1 = k ∨ p.1 ∈ d.map Prod.fst := by
  intro p hp
  unfold setAssoc at hp
  split at hp
  · obtain ⟨q, hq, hfq⟩ := List.mem_map.mp hp
    by_cases h1 : q.1 = k
    · left
      rw [if_pos h1] at hfq
      rw [← hfq]
    · right
      rw [if_neg h1] at hfq
      rw [← hfq]
      exact List.mem_map_of_mem Prod.fst hq
  · rcases List.mem_append.mp hp with h1 | h1
    · right
      exact List.mem_map_of_mem Prod.fst h1
    · left
      have h2 : p = (k, v) := by
        simpa using h1
      rw [h2]

/-! ### Structural lemmas about one processed message -/

theorem handleDataCollection_nextStep (c : CallContext) (m : String) (r : Nat) :
    (handleDataCollection c m r).2.nextStep = "collecting" ∨
    (handleDataCollection c m r).2.nextStep = "confirming" := by
  unfold handleDataCollection
  cases hmf : c.coreFields.filter (fun field => coreFieldMissing c.collectedData field.id) with
  | cons f fs => left; rfl
  | nil =>
    cases hq : c.additionalQuestions.filter (fun q => !(truthyAt c.collectedData q.id)) with
    | cons q qs => left; rfl
    | nil => right; rfl

theorem stepSession_coreFields_eq (c : CallContext) (m : String) (r : Nat) :
    (stepSession c m r).1.coreFields = c.coreFields := rfl

theorem extract_keys (c : CallContext) (m : String) (allowed : List String)
    (h0 : ∀ p ∈ c.collectedData, p.1 ∈ allowed)
    (hcore : ∀ f ∈ c.coreFields, f.id ∈ allowed)
    (he : "email" ∈ allowed) (hph : "phone" ∈ allowed) :
    ∀ p ∈ extractAndStoreData c m, p.1 ∈ allowed := by
  have hset : ∀ (d : List (String × String)) (km vm : String),
      (∀ p ∈ d, p.1 ∈ allowed) → km ∈ allowed → ∀ p ∈ setAssoc d km vm, p.1 ∈ allowed := by
    intro d km vm hd hkm p hp2
    rcases fst_mem_setAssoc d km vm p hp2 with h | h
    · rw [h]
      exact hkm
    · obtain ⟨q, hq, hq2⟩ := List.mem_map.mp h
      rw [← hq2]
      exact hd q hq
  intro p hp2
  unfold extractAndStoreData at hp2
  cases hE : jsMatch emailPattern m with
  | some v1 =>
    cases hP : jsMatch phonePattern m with
    | some v2 =>
      simp only [hE, hP] at hp2
      split at hp2
      next hcond => simp at hcond
      next => exact hset _ _ _ (hset _ _ _ h0 he) hph p hp2
    | none =>
      simp only [hE, hP] at hp2
      split at hp2
      next hcond => simp at hcond
      next => exact hset _ _ _ h0 he p hp2
  | none =>
    cases hP : jsMatch phonePattern m with
    | some v2 =>
      simp only [hE, hP] at hp2
      split at hp2
      next hcond => simp at hcond
      next => exact hset _ _ _ h0 hph p hp2
    | none =>
      simp only [hE, hP] at hp2
      split at hp2
      · split at hp2
        next f hF =>
          have hf : f ∈ c.coreFields := List.mem_of_find?_eq_some hF
          exact hset _ _ _ h0 (hcore f hf) p hp2
        next hF => exact h0 p hp2
      · exact h0 p hp2

theorem stepSession_keys (c : CallContext) (m : String) (r : Nat) (allowed : List String)
    (h0 : ∀ p ∈ c.collectedData, p.1 ∈ allowed)
    (hcore : ∀ f ∈ c.coreFields, f.id ∈ allowed)
    (he : "email" ∈ allowed) (hph : "phone" ∈ allowed) :
    ∀ p ∈ (stepSession c m r).1.collectedData, p.1 ∈ allowed := by
  intro p hp2
  have hdata : (stepSession c m r).1.collectedData =
      (if c.currentStep = "greeting" then c.collectedData
       else if c.currentStep = "collecting" then
         (handleDataCollection
           { c with conversationHistory :=
               c.conversationHistory ++ [{ role := "user", content := m }] } m r).1
       else c.collectedData) := by
    simp only [stepSession, processMessage]
    split_ifs <;> rfl
  rw [hdata] at hp2
  split_ifs at hp2 with h1 h2
  · exact h0 p hp2
  · unfold handleDataCollection at hp2
    cases hmf : List.filter (fun field => coreFieldMissing c.collectedData field.id) c.coreFields with
    | cons f fs =>
      rw [hmf] at hp2
      simp only at hp2
      exact extract_keys _ m allowed h0 hcore he hph p hp2
    | nil =>
      rw [hmf] at hp2
      simp only at hp2
      cases hq : List.filter (fun q => !truthyAt c.collectedData q.id) c.additionalQuestions with
      | cons q qs =>
        rw [hq] at hp2
        simp only at hp2
        exact h0 p hp2
      | nil =>
        rw [hq] at hp2
        simp only at hp2
        exact h0 p hp2
  · exact h0 p hp2

/-! ### Claim C1 -/

/-- Claim C1 fails on the code: at the Scenario A session (step `collecting`,
core fields name, email, phone all unfilled) the message "John Smith" does get
assigned to `name` by the extractor, but the reply asks for NAME again — the
head of the missing-field list computed before extraction ran — and contains no
mention of email, while the claim says the reply asks for email. -/
theorem claim1_counterexample :
    lookupAssoc (stepSession ctxA "John Smith" 0).1.collectedData "name" = some "John Smith" ∧
    (stepSession ctxA "John Smith" 0).2.response = "umm, and what\x27s your name?" ∧
    strIncludes (stepSession ctxA "John Smith" 0).2.response "email" = false ∧
    (stepSession ctxA "John Smith" 0).2.nextStep = "collecting" := by decide

/-- Claim C1 as amended: in the collecting step, whenever at least one core
field is missing, the extractor runs and its result is persisted, but the reply
prompts the FIRST core field that was missing before the current message's
extraction was applied (the head of the pre-extraction missing-field list), and
`nextStep` stays `collecting`. -/
theorem claim1_theorem (c : CallContext) (m : String) (r : Nat) (f : FieldDef)
    (fs : List FieldDef)
    (hstep : c.currentStep = "collecting")
    (hmiss : c.coreFields.filter (fun fd => coreFieldMissing c.collectedData fd.id) = f :: fs) :
    (stepSession c m r).2.response =
      fillerAt r ++ ", and what\x27s your " ++ jsToLower f.label ++ "?" ∧
    (stepSession c m r).2.nextStep = "collecting" ∧
    (stepSession c m r).1.collectedData = extractAndStoreData c m := by
  simp only [stepSession, processMessage, hstep]
  simp only [handleDataCollection]
  simp [hmiss]
  rfl

/-- Witness for claim1_theorem at the Scenario A session and message "John Smith". -/
theorem claim1_witness :
    ctxA.currentStep = "collecting" ∧
    ctxA.coreFields.filter (fun fd => coreFieldMissing ctxA.collectedData fd.id) =
      ({ id := "name", label := "Name", required := true } : FieldDef) ::
        [{ id := "email", label := "Email", required := true },
         { id := "phone", label := "Phone", required := true }] ∧
    ((stepSession ctxA "John Smith" 0).2.response =
        fillerAt 0 ++ ", and what\x27s your " ++
          jsToLower ({ id := "name", label := "Name", required := true } : FieldDef).label ++ "?" ∧
      (stepSession ctxA "John Smith" 0).2.nextStep = "collecting" ∧
      (stepSession ctxA "John Smith" 0).1.collectedData = extractAndStoreData ctxA "John Smith") :=
  ⟨by decide, by decide,
    claim1_theorem ctxA "John Smith" 0 { id := "name", label := "Name", required := true }
      [{ id := "email", label := "Email", required := true },
       { id := "phone", label := "Phone", required := true }] (by decide) (by decide)⟩

/-! ### Claim C2 -/

/-- Claim C2: for every session at one of the five defined steps, one processed
message moves `currentStep` only along greeting → collecting → confirming →
booking → complete (self-loops at collecting and complete included), the single
backward edge being confirming → collecting, taken exactly when the message
lacks all affirmative tokens; `complete` never transitions away. -/
theorem claim2_theorem (c : CallContext) (m : String) (r : Nat)
    (h : validStep c.currentStep) :
    allowedTransition c.currentStep (stepSession c m r).2.nextStep ∧
    (c.currentStep = "confirming" →
      ((stepSession c m r).2.nextStep = "collecting" ↔ isConfirmed m = false)) := by
  have hs : (stepSession c m r).2.nextStep = (processMessage c m r).2.nextStep := rfl
  rcases h with h | h | h | h | h
  · constructor
    · simp [stepSession, processMessage, h, allowedTransition]
    · intro h2
      rw [h] at h2
      exact absurd h2 (by decide)
  · constructor
    · have hd := handleDataCollection_nextStep
        { c with conversationHistory := c.conversationHistory ++ [{ role := "user", content := m }] } m r
      rw [h] at hd
      rw [hs]
      simp only [processMessage, h]
      simpa [allowedTransition] using hd
    · intro h2
      rw [h] at h2
      exact absurd h2 (by decide)
  · constructor
    · rw [hs]
      simp only [processMessage, h]
      by_cases hc : isConfirmed m <;>
        simp [allowedTransition, handleConfirmation, hc]
    · intro _
      rw [hs]
      simp only [processMessage, h]
      by_cases hc : isConfirmed m <;>
        simp [handleConfirmation, hc]
  · constructor
    · rw [hs]
      simp only [processMessage, h]
      by_cases hb : wantsBooking m <;>
        simp [allowedTransition, handleBooking, hb]
    · intro h2
      rw [h] at h2
      exact absurd h2 (by decide)
  · constructor
    · rw [hs]
      simp [processMessage, h, allowedTransition]
    · intro h2
      rw [h] at h2
      exact absurd h2 (by decide)

/-- Witness for claim2_theorem at the Scenario A session and a plain message. -/
theorem claim2_witness :
    validStep ctxA.currentStep ∧
    (allowedTransition ctxA.currentStep (stepSession ctxA "hello there" 0).2.nextStep ∧
     (ctxA.currentStep = "confirming" →
       ((stepSession ctxA "hello there" 0).2.nextStep = "collecting" ↔
         isConfirmed "hello there" = false))) :=
  ⟨by unfold validStep; decide, claim2_theorem ctxA "hello there" 0 (by unfold validStep; decide)⟩

/-! ### Claim C3 -/

/-- Claim C3 fails on the code: a session whose only configured field id is
`company` (no field `email`, no additional questions) processes the message
"a@b.co" and ends up with the key `email` in `collectedData`, a key outside the
union of configured core-field ids and question ids; the extractor writes an
email-shaped match unconditionally under the literal key `email`. -/
theorem claim3_counterexample :
    lookupAssoc (stepSession ctxC3 "a@b.co" 0).1.collectedData "email" = some "a@b.co" ∧
    ¬("email" ∈ ctxC3.coreFields.map (fun f => f.id) ++
        ctxC3.additionalQuestions.map (fun q => q.id)) := by decide

/-- Claim C3 as amended: over every sequence of processed messages the key set
of `collectedData` stays inside the initial keys together with the configured
core-field ids and the two literal keys `email` and `phone` — the extractor
writes pattern matches unconditionally under those two fixed keys (even when no
such field is configured or the field is already filled), and otherwise only
core-field ids are ever written. -/
theorem claim3_theorem (c : CallContext) (evts : List (String × Nat)) (allowed : List String)
    (h0 : ∀ p ∈ c.collectedData, p.1 ∈ allowed)
    (hcore : ∀ f ∈ c.coreFields, f.id ∈ allowed)
    (he : "email" ∈ allowed) (hph : "phone" ∈ allowed) :
    ∀ p ∈ (runMessages c evts).collectedData, p.1 ∈ allowed := by
  induction evts generalizing c with
  | nil => exact h0
  | cons e rest ih =>
    have hstep : runMessages c (e :: rest) = runMessages (stepSession c e.1 e.2).1 rest := rfl
    rw [hstep]
    have h0' := stepSession_keys c e.1 e.2 allowed h0 hcore he hph
    have hcore' : ∀ f ∈ (stepSession c e.1 e.2).1.coreFields, f.id ∈ allowed := by
      rw [stepSession_coreFields_eq]
      exact hcore
    exact ih (stepSession c e.1 e.2).1 h0' hcore'

/-- Witness for claim3_theorem: the Scenario A session processing a name and
then a message carrying an email and a phone keeps all keys inside
name, email, phone. -/
theorem claim3_witness :
    (∀ p ∈ ctxA.collectedData, p.1 ∈ (["name", "email", "phone"] : List String)) ∧
    (∀ f ∈ ctxA.coreFields, f.id ∈ (["name", "email", "phone"] : List String)) ∧
    "email" ∈ (["name", "email", "phone"] : List String) ∧
    "phone" ∈ (["name", "email", "phone"] : List String) ∧
    ∀ p ∈ (runMessages ctxA [("John Smith", 0), ("a@b.co 123-456-7890", 1)]).collectedData,
      p.1 ∈ (["name", "email", "phone"] : List String) :=
  ⟨by decide, by decide, by decide, by decide,
    claim3_theorem ctxA [("John Smith", 0), ("a@b.co 123-456-7890", 1)] ["name", "email", "phone"]
      (by decide) (by decide) (by decide) (by decide)⟩

/-! ### Claim C4 -/

/-- Claim C4 and the code diverge: with all core fields filled and the
additional question `q1` unanswered, the short message "Tomorrow" is NOT stored
under `q1` — `handleDataCollection` never invokes the extractor once the core
fields are complete, and the extractor fallback scans only `coreFields` — so
`collectedData` is unchanged, `q1` stays unanswered and the very same question
is asked again on the next turn, forever. -/
theorem claim4_theorem :
    (stepSession ctxC4 "Tomorrow" 0).1.collectedData = ctxC4.collectedData ∧
    lookupAssoc (stepSession ctxC4 "Tomorrow" 0).1.collectedData "q1" = none ∧
    (stepSession ctxC4 "Tomorrow" 0).2.response = "Great! What time works best?" ∧
    (stepSession ctxC4 "Tomorrow" 0).2.nextStep = "collecting" ∧
    (stepSession (stepSession ctxC4 "Tomorrow" 0).1 "Tomorrow" 1).2.response =
      "Great! What time works best?" := by decide

/-! ### Claim C5 -/

/-- Claim C5 fails on the code: from empty collected data, a single extraction
call on a message carrying both an email-shaped and a phone-shaped token
populates TWO fields, `email` and `phone`. -/
theorem claim5_counterexample :
    ctxA.collectedData = [] ∧
    extractAndStoreData ctxA "a@b.co 123-456-7890" =
      [("email", "a@b.co"), ("phone", "123-456-7890")] := by decide

/-- Claim C5 as amended: a single extraction call changes at most TWO keys of
`collectedData` — `email` and `phone` may both be written when both patterns
match; every key outside an explicit set of at most two keys keeps its value. -/
theorem claim5_theorem (c : CallContext) (m : String) :
    ∃ ks : List String, ks.length ≤ 2 ∧
      ∀ k, k ∉ ks →
        lookupAssoc (extractAndStoreData c m) k = lookupAssoc c.collectedData k := by
  unfold extractAndStoreData
  cases hE : jsMatch emailPattern m with
  | some v1 =>
    cases hP : jsMatch phonePattern m with
    | some v2 =>
      refine ⟨["email", "phone"], by simp, ?_⟩
      intro k hk
      simp only [List.mem_cons, List.not_mem_nil, or_false, not_or] at hk
      simp only [hE, hP, Option.isNone_some, Bool.and_false, Bool.false_eq_true, if_false]
      rw [lookupAssoc_setAssoc_ne _ _ _ _ hk.2, lookupAssoc_setAssoc_ne _ _ _ _ hk.1]
    | none =>
      refine ⟨["email"], by simp, ?_⟩
      intro k hk
      simp only [List.mem_cons, List.not_mem_nil, or_false, not_or] at hk
      simp only [hE, hP, Option.isNone_some, Option.isNone_none, Bool.and_false, Bool.and_true,
        Bool.false_and, Bool.false_eq_true, if_false]
      rw [lookupAssoc_setAssoc_ne _ _ _ _ hk]
  | none =>
    cases hP : jsMatch phonePattern m with
    | some v2 =>
      refine ⟨["phone"], by simp, ?_⟩
      intro k hk
      simp only [List.mem_cons, List.not_mem_nil, or_false, not_or] at hk
      simp only [hE, hP, Option.isNone_some, Option.isNone_none, Bool.and_false, Bool.and_true,
        Bool.false_eq_true, if_false]
      rw [lookupAssoc_setAssoc_ne _ _ _ _ hk]
    | none =>
      by_cases hw : (splitOnSpace (jsToLower m).toList).length ≤ 4
      · cases hF : List.find? (fun f => !truthyAt c.collectedData f.id) c.coreFields with
        | some f =>
          refine ⟨[f.id], by simp, ?_⟩
          intro k hk
          simp only [List.mem_cons, List.not_mem_nil, or_false, not_or] at hk
          simp only [hE, hP, Option.isNone_none, Bool.and_true, hw, decide_eq_true_eq, if_true, hF]
          rw [lookupAssoc_setAssoc_ne _ _ _ _ hk]
        | none =>
          refine ⟨[], by simp, ?_⟩
          intro k _
          simp only [hE, hP, Option.isNone_none, Bool.and_true, hw, decide_eq_true_eq, if_true, hF]
      · refine ⟨[], by simp, ?_⟩
        intro k _
        simp only [hE, hP, Option.isNone_none, Bool.and_true, hw, decide_eq_true_eq, if_false]

/-! ### Claim C6 -/

/-- Claim C6 fails on the code: a session whose single core field is NOT marked
required and is unfilled (and with no additional questions) still makes
`needsMoreData` true — the code ignores the `required` flag, while the claim
predicts false for this session. -/
theorem claim6_counterexample :
    needsMoreData ctxC6 = true ∧ needsMoreDataSpecRequiredOnly ctxC6 = false ∧
    ctxC6.additionalQuestions = [] ∧
    (∀ f ∈ ctxC6.coreFields, f.required = false) := by decide

/-- Claim C6 as amended: `needsMoreData` is true iff some configured core field
— required or not — or some configured additional question has no truthy
(non-empty) entry in `collectedData`; and whenever it is true,
`canOfferBooking` is false. -/
theorem claim6_theorem (c : CallContext) :
    (needsMoreData c = true ↔
      ((∃ f ∈ c.coreFields, truthyAt c.collectedData f.id = false) ∨
       (∃ q ∈ c.additionalQuestions, truthyAt c.collectedData q.id = false))) ∧
    (needsMoreData c = true → canOfferBooking c = false) := by
  constructor
  · unfold needsMoreData
    simp only [Bool.or_eq_true, Bool.not_eq_true', List.all_eq_false, Bool.not_eq_true]
  · intro h
    unfold canOfferBooking
    rw [h]
    rfl

/-! ### Claim C7 -/

/-- Claim C7: for every session, message and pair of random draws, the
interruption branch increments `interruptionCount` by exactly one, leaves
`currentStep` and `collectedData` untouched (the field extractor is never
invoked on this path), reports the unchanged step as `nextStep`, and its reply
is one of the fixed acknowledgment phrases followed by the contextual fragment
selected by the session's current step. -/
theorem claim7_theorem (c : CallContext) (m : String) (r1 r2 : Nat) :
    (handleInterruption c m r1 r2).1.interruptionCount = c.interruptionCount + 1 ∧
    (handleInterruption c m r1 r2).1.currentStep = c.currentStep ∧
    (handleInterruption c m r1 r2).1.collectedData = c.collectedData ∧
    (handleInterruption c m r1 r2).2.nextStep = c.currentStep ∧
    ∃ ack ∈ INTERRUPTION_RESPONSES,
      (handleInterruption c m r1 r2).2.response =
        ack ++ ". " ++ generateContextualResponse c m r2 := by
  refine ⟨rfl, rfl, rfl, rfl, ackAt r1, ?_, ?_⟩
  · exact List.get_mem _ _ _
  · rfl

/-! ### Claim C8 -/

/-- Claim C8 fails on the code: with the store's next write failing, the
handler still returns the computed reply and nextStep as a 200 success body and
the store is left unchanged — `updateSession` discards the write result, so no
retryable error ever reaches the caller. -/
theorem claim8_counterexample :
    storeFail.writeFails = true ∧
    (serveProcess storeFail "s1" "John Smith" 0).1 =
      HandlerResult.ok (processMessage ctxA "John Smith" 0).2 ∧
    (serveProcess storeFail "s1" "John Smith" 0).2 = storeFail := by decide

/-- Claim C8 as amended: whenever the session exists and the session-store
write fails after the transition was computed, the handler surfaces NO error:
it returns the computed response body as a committed success while the store
keeps its old state, the divergence the claim said must be prevented. -/
theorem claim8_theorem (store : SessionStore) (sid m : String) (r : Nat) (c : CallContext)
    (hrow : lookupAssoc store.rows sid = some c) (hfail : store.writeFails = true) :
    (serveProcess store sid m r).1 = HandlerResult.ok (processMessage c m r).2 ∧
    (serveProcess store sid m r).2 = store := by
  unfold serveProcess
  rw [hrow]
  simp [storeWrite, hfail]

/-- Witness for claim8_theorem at the failing store holding the Scenario A session. -/
theorem claim8_witness :
    lookupAssoc storeFail.rows "s1" = some ctxA ∧ storeFail.writeFails = true ∧
    ((serveProcess storeFail "s1" "hi" 0).1 = HandlerResult.ok (processMessage ctxA "hi" 0).2 ∧
     (serveProcess storeFail "s1" "hi" 0).2 = storeFail) :=
  ⟨by decide, rfl, claim8_theorem storeFail "s1" "hi" 0 ctxA (by decide) rfl⟩

/-! ### Claim C9 -/

/-- Claim C9 fails on the code: processing the empty message at the Scenario A
session is NOT a no-op on `collectedData` — the empty trimmed text is assigned
to the first unfilled core field, so the key `name` appears with value "". -/
theorem claim9_counterexample :
    (stepSession ctxA "" 0).1.collectedData = [("name", "")] ∧
    ¬((stepSession ctxA "" 0).1.collectedData = ctxA.collectedData) ∧
    lookupAssoc (stepSession ctxA "" 0).1.collectedData "name" = some "" := by decide

/-- Claim C9 as amended: the empty message receives no special guard; in the
collecting step with a missing core field it is routed through the extractor,
which stores the empty trimmed text under the first unfilled core field — that
entry stays falsy, so the field still counts as missing and the same prompt
repeats — and `nextStep` stays `collecting`. -/
theorem claim9_theorem (c : CallContext) (r : Nat) (f : FieldDef) (fs : List FieldDef)
    (g : FieldDef)
    (hstep : c.currentStep = "collecting")
    (hmiss : c.coreFields.filter (fun fd => coreFieldMissing c.collectedData fd.id) = f :: fs)
    (hfind : List.find? (fun fd => !truthyAt c.collectedData fd.id) c.coreFields = some g) :
    (stepSession c "" r).2.nextStep = "collecting" ∧
    (stepSession c "" r).1.collectedData = setAssoc c.collectedData g.id "" ∧
    lookupAssoc (stepSession c "" r).1.collectedData g.id = some "" ∧
    truthyAt (stepSession c "" r).1.collectedData g.id = false := by
  have hE : jsMatch emailPattern "" = none := by decide
  have hP : jsMatch phonePattern "" = none := by decide
  have hW : (splitOnSpace (jsToLower "").toList).length ≤ 4 := by decide
  have hx : extractAndStoreData c "" = setAssoc c.collectedData g.id "" := by
    unfold extractAndStoreData
    simp only [hE, hP, Option.isNone_none, Bool.and_true, hW, decide_eq_true_eq, if_true, hfind]
    rfl
  have hd : (stepSession c "" r).1.collectedData = extractAndStoreData c "" := by
    simp only [stepSession, processMessage, hstep]
    simp only [handleDataCollection]
    simp [hmiss]
    rfl
  refine ⟨?_, ?_, ?_, ?_⟩
  · simp only [stepSession, processMessage, hstep]
    simp only [handleDataCollection]
    simp [hmiss]
  · rw [hd, hx]
  · rw [hd, hx]
    exact lookupAssoc_setAssoc_self _ _ _
  · rw [hd, hx]
    unfold truthyAt
    rw [lookupAssoc_setAssoc_self]
    rfl

/-- Witness for claim9_theorem at the Scenario A session. -/
theorem claim9_witness :
    ctxA.currentStep = "collecting" ∧
    ctxA.coreFields.filter (fun fd => coreFieldMissing ctxA.collectedData fd.id) =
      ({ id := "name", label := "Name", required := true } : FieldDef) ::
        [{ id := "email", label := "Email", required := true },
         { id := "phone", label := "Phone", required := true }] ∧
    List.find? (fun fd => !truthyAt ctxA.collectedData fd.id) ctxA.coreFields =
      some { id := "name", label := "Name", required := true } ∧
    ((stepSession ctxA "" 0).2.nextStep = "collecting" ∧
     (stepSession ctxA "" 0).1.collectedData =
       setAssoc ctxA.collectedData
         ({ id := "name", label := "Name", required := true } : FieldDef).id "" ∧
     lookupAssoc (stepSession ctxA "" 0).1.collectedData
       ({ id := "name", label := "Name", required := true } : FieldDef).id = some "" ∧
     truthyAt (stepSession ctxA "" 0).1.collectedData
       ({ id := "name", label := "Name", required := true } : FieldDef).id = false) :=
  ⟨by decide, by decide, by decide,
    claim9_theorem ctxA 0 { id := "name", label := "Name", required := true }
      [{ id := "email", label := "Email", required := true },
       { id := "phone", label := "Phone", required := true }]
      { id := "name", label := "Name", required := true } (by decide) (by decide) (by decide)⟩

/-! ### Claim C10 -/

/-- Claim C10: the response flags are computed with `currentStep` still holding
the pre-transition step, so a session at `booking` with every field and
question answered returns `nextStep = complete` together with
`bookingAvailable = true` (and `shouldCollectMore = false`) for any message. -/
theorem claim10_theorem (c : CallContext) (m : String) (r : Nat)
    (hstep : c.currentStep = "booking") (hdata : needsMoreData c = false) :
    (processMessage c m r).2.nextStep = "complete" ∧
    (processMessage c m r).2.bookingAvailable = true ∧
    (processMessage c m r).2.shouldCollectMore = false := by
  have hb : (handleBooking m).nextStep = "complete" := by
    unfold handleBooking
    split <;> rfl
  simp only [needsMoreData] at hdata
  refine ⟨?_, ?_, ?_⟩ <;>
    simp [processMessage, hstep, hb, canOfferBooking, needsMoreData, hdata]

/-- Witness for claim10_theorem at a fully-answered session at step `booking`. -/
theorem claim10_witness :
    ctxC10.currentStep = "booking" ∧ needsMoreData ctxC10 = false ∧
    ((processMessage ctxC10 "No thanks" 0).2.nextStep = "complete" ∧
     (processMessage ctxC10 "No thanks" 0).2.bookingAvailable = true ∧
     (processMessage ctxC10 "No thanks" 0).2.shouldCollectMore = false) :=
  ⟨rfl, by decide, claim10_theorem ctxC10 "No thanks" 0 rfl (by decide)⟩
